import Mathlib

/-!
Verification of the yezu language front end (src/yezu.py): a shallow
embedding of the position-tracking scanner, the tokenizer, the
recursive-descent parser, and the (spec-described) stack-effect type
checker, together with theorems settling the specification claims.

Python source text is modelled as `List Char`; the scanner cursor state is
explicit; iterator exhaustion (StopIteration) is `none`; the `report`
fatal-exit calls are modelled as `Except` error values. Loops are given
explicit fuel so that every definition is structurally recursive and
kernel-evaluable; the fuel chosen is always sufficient because each loop
iteration advances the scanner index (or consumes a token).
-/

namespace Yezu

/-- The single-quote character (written numerically). -/
def squote : Char := Char.ofNat 39

/-- Python str.isspace restricted to the ASCII whitespace characters. -/
def isspace (c : Char) : Bool :=
  c == ' ' || c == '\t' || c == '\n' || c == '\r' || c == Char.ofNat 11 || c == Char.ofNat 12

/-- The predicate of the scanner's in-word accumulation loops:
`lambda c: not c.isspace() and c not in ";\"\'"` (yezu.py lines 71, 78). -/
def notWordBreak (c : Char) : Bool :=
  !(isspace c) && !(c == ';') && !(c == '"') && !(c == squote)

/-- yezu.py lines 16-25: source path, 1-based line, 0-based column. -/
structure Position where
  path : String
  line : Int
  row : Int
deriving DecidableEq, Repr

/-- yezu.py lines 27-33: the Scanner's mutable cursor state. -/
structure Scanner where
  path : String
  string : List Char
  index : Nat
  line : Int
  row : Int
deriving DecidableEq, Repr

/-- yezu.py lines 28-33: Scanner.__init__ (with the file already read). -/
def Scanner.mkInit (path : String) (text : List Char) : Scanner :=
  ⟨path, text, 0, 1, 0⟩

/-- yezu.py lines 38-40: the position property. -/
def Scanner.position (s : Scanner) : Position :=
  ⟨s.path, s.line, s.row⟩

/-- yezu.py lines 42-49: Scanner.increment. The index always advances by
one; line/row bookkeeping inspects the character at the new index only. -/
def Scanner.increment (s : Scanner) : Scanner :=
  let i := s.index + 1
  match s.string[i]? with
  | some c =>
      if c == '\n' then { s with index := i, line := s.line + 1, row := -1 }
      else { s with index := i, row := s.row + 1 }
  | none => { s with index := i }

/-- yezu.py lines 51-53: Scanner.skip, with explicit fuel. Each iteration
advances `index` by one, so `string.length + 1 - index` fuel is enough. -/
def Scanner.skipFuel : Nat → (Char → Bool) → Scanner → Scanner
  | 0, _, s => s
  | fuel+1, cond, s =>
    match s.string[s.index]? with
    | some c => if cond c then Scanner.skipFuel fuel cond s.increment else s
    | none => s

/-- yezu.py lines 51-53: `skip(cond)` — advance while the current character
exists and satisfies `cond`. -/
def Scanner.skip (cond : Char → Bool) (s : Scanner) : Scanner :=
  Scanner.skipFuel (s.string.length + 1 - s.index) cond s

/-- yezu.py lines 55-57: `until(stop)` — advance while the current
character exists and differs from `stop`. -/
def Scanner.untilStop (stop : Char) (s : Scanner) : Scanner :=
  s.skip (fun c => !(c == stop))

/-- yezu.py lines 72-80: the quoted-substring continuation loop inside
Scanner.__next__ (fuel-indexed; each iteration advances the index). -/
def Scanner.quoteLoop : Nat → Scanner → Scanner
  | 0, s => s
  | fuel+1, s =>
    match s.string[s.index]? with
    | none => s
    | some c =>
      if isspace c then s
      else if c == '"' || c == squote then
        let s1 := s.increment
        let s2 := s1.untilStop c
        let s3 := s2.increment
        let s4 := s3.skip notWordBreak
        Scanner.quoteLoop fuel s4
      else s

/-- yezu.py lines 59-81: Scanner.__next__. Returns `none` for
StopIteration, otherwise the (position, raw lexeme) pair and the
post-lexeme scanner state. -/
def Scanner.next (s0 : Scanner) : Option ((Position × List Char) × Scanner) :=
  let s := s0.skip isspace
  match s.string[s.index]? with
  | none => none
  | some c =>
    if c == ';' then
      let start := s.index
      let pos := s.position
      let s1 := s.untilStop '\n'
      some ((pos, (s.string.take s1.index).drop start), s1)
    else
      let start := s.index
      let pos := s.position
      let s1 := s.skip notWordBreak
      let s2 := Scanner.quoteLoop (s.string.length + 1) s1
      some ((pos, (s.string.take s2.index).drop start), s2)

/-- Iterate Scanner.__next__ to exhaustion (fuel-indexed). -/
def scanAllAux : Nat → Scanner → List (Position × List Char)
  | 0, _ => []
  | fuel+1, s =>
    match s.next with
    | none => []
    | some (res, s1) => res :: scanAllAux fuel s1

/-- The full lexeme sequence the Scanner yields for a source text. Every
yielded lexeme advances the index by at least one, so `length + 1` fuel
is sufficient. -/
def scanAll (path : String) (text : List Char) : List (Position × List Char) :=
  scanAllAux (text.length + 1) (Scanner.mkInit path text)

/-- yezu.py lines 95-113: the token kind tags. -/
inductive Kind where
  | ILLEGAL | COMMENT | WORD
  | INTEGER | FLOAT | BOOLEAN | STRING | CHARACTER
  | FUN | END | IF | THEN | ELIF | ELSE | WHILE | DO
deriving DecidableEq, Repr

/-- yezu.py lines 115-124: the keyword table STRING_TO_KIND. -/
def STRING_TO_KIND : List (List Char × Kind) :=
  [("fun".data, .FUN), ("end".data, .END), ("if".data, .IF), ("then".data, .THEN),
   ("elif".data, .ELIF), ("else".data, .ELSE), ("while".data, .WHILE), ("do".data, .DO)]

/-- A Python token value: `None`, an int, a decoded float literal (kept as
its exact decimal mantissa and fraction-digit count, so that the decimal
`m / 10 ^ scale` is the decoded number), a bool, or a string. -/
inductive Value where
  | vnone
  | vint (n : Int)
  | vfloat (mantissa : Int) (scale : Nat)
  | vbool (b : Bool)
  | vstr (s : List Char)
deriving DecidableEq, Repr

/-- yezu.py lines 126-138: Token record. -/
structure Token where
  pos : Position
  kind : Kind
  value : Value
deriving DecidableEq, Repr

/-- Full-string match of `^-?\d+$` (REGEX_INTEGER, yezu.py line 140). -/
def matchInteger (s : List Char) : Bool :=
  match s with
  | '-' :: rest => !rest.isEmpty && rest.all Char.isDigit
  | _ => !s.isEmpty && s.all Char.isDigit

/-- Full-string match of `\d+\.\d+` (the unsigned part of REGEX_FLOAT). -/
def matchFloatCore (s : List Char) : Bool :=
  let ip := s.takeWhile Char.isDigit
  match s.dropWhile Char.isDigit with
  | '.' :: fp => !ip.isEmpty && !fp.isEmpty && fp.all Char.isDigit
  | _ => false

/-- Full-string match of `^-?\d+\.\d+$` (REGEX_FLOAT, yezu.py line 141). -/
def matchFloat (s : List Char) : Bool :=
  match s with
  | '-' :: rest => matchFloatCore rest
  | _ => matchFloatCore s

/-- Full-string match of `^\"[^\"]*\"$` (REGEX_STRING, yezu.py line 142). -/
def matchString (s : List Char) : Bool :=
  match s with
  | '"' :: rest =>
      !rest.isEmpty && rest.dropLast.all (fun c => !(c == '"')) && rest.getLast? == some '"'
  | _ => false

/-- Full-string match of REGEX_CHARACTER (yezu.py line 143): a single
non-quote character between two single quotes. -/
def matchCharacter (s : List Char) : Bool :=
  match s with
  | [q1, c, q2] => q1 == squote && q2 == squote && !(c == squote)
  | _ => false

/-- Full-string match of REGEX_WORD (yezu.py line 144): nonempty, and no
double- or single-quote character anywhere. -/
def matchWord (s : List Char) : Bool :=
  !s.isEmpty && s.all (fun c => !(c == '"') && !(c == squote))

/-- Decimal digits to a natural number. -/
def digitsToNat (ds : List Char) : Nat :=
  ds.foldl (fun a c => a * 10 + (c.toNat - '0'.toNat)) 0

/-- Python `int(string, base=10)` on a lexeme matching REGEX_INTEGER. -/
def decodeInt (s : List Char) : Int :=
  match s with
  | '-' :: rest => -(digitsToNat rest : Int)
  | _ => (digitsToNat s : Int)

/-- Python `float(string)` on a lexeme matching REGEX_FLOAT, kept as the
exact decimal it denotes: mantissa and number of fraction digits. -/
def decodeFloat (s : List Char) : Value :=
  let core := fun (u : List Char) =>
    let ip := u.takeWhile Char.isDigit
    let fp := (u.dropWhile Char.isDigit).drop 1
    (digitsToNat ip * 10 ^ fp.length + digitsToNat fp, fp.length)
  match s with
  | '-' :: rest =>
      let (m, sc) := core rest
      Value.vfloat (-(m : Int)) sc
  | _ =>
      let (m, sc) := core s
      Value.vfloat (m : Int) sc

/-- Association-list lookup for the keyword table. -/
def lookupKeyword (s : List Char) : Option Kind :=
  (STRING_TO_KIND.find? (fun p => p.1 == s)).map Prod.snd

/-- yezu.py lines 146-164: tokenize — a total pure classification of one
raw lexeme, first match wins, falling through to ILLEGAL. -/
def tokenize (pos : Position) (s : List Char) : Token :=
  if matchInteger s then ⟨pos, .INTEGER, .vint (decodeInt s)⟩
  else if matchFloat s then ⟨pos, .FLOAT, decodeFloat s⟩
  else if s == "true".data || s == "false".data then ⟨pos, .BOOLEAN, .vbool (s == "true".data)⟩
  else if matchString s then ⟨pos, .STRING, .vstr (s.drop 1).dropLast⟩
  else if matchCharacter s then ⟨pos, .CHARACTER, .vstr (s.drop 1).dropLast⟩
  else
    match lookupKeyword s with
    | some k => ⟨pos, k, .vnone⟩
    | none =>
      if s.head? == some ';' then ⟨pos, .COMMENT, .vstr (s.drop 1)⟩
      else if matchWord s then ⟨pos, .WORD, .vstr s⟩
      else ⟨pos, .ILLEGAL, .vstr s⟩

/-- yezu.py lines 166-177: the Lexer — scan, then tokenize each lexeme. -/
def lexAll (path : String) (text : List Char) : List Token :=
  (scanAll path text).map (fun pl => tokenize pl.1 pl.2)

/-- yezu.py lines 88-91 and 401: `Kind.COMMENT.exclude(tokens)`. -/
def excludeComments (ts : List Token) : List Token :=
  ts.filter (fun t => !(t.kind == Kind.COMMENT))

/-- yezu.py lines 179-185: the literal token kinds. -/
def VALUE_KINDS : List Kind :=
  [.INTEGER, .FLOAT, .BOOLEAN, .STRING, .CHARACTER]

/-- Structured form of the parser's fatal `report` diagnostics
(yezu.py lines 254, 256, 304). `missingExpected` carries the expected
kinds and, when a token was present, its kind and position; `found = none`
is the end-of-input case ("found nothing"). `currentNone` models the
(unreachable from the entry points) Python AttributeError of reading
`self.current.kind` with no current token, and `outOfFuel` is the
fuel-exhaustion sentinel of the embedding, likewise unreachable for the
fuel supplied by `parseTokens`. -/
inductive PError where
  | missingExpected (expected : List Kind) (found : Option (Kind × Position))
  | unexpectedToken (kind : Kind) (pos : Position)
  | currentNone
  | outOfFuel
deriving DecidableEq, Repr

/-- yezu.py lines 187-228: program tree nodes. An instruction is a bare
token, an If (ordered case list, `none` condition for the else arm), or a
While. -/
inductive Instr where
  | tok (t : Token)
  | ifNode (pos : Position) (cases : List (Option (List Instr) × List Instr))
  | whileNode (pos : Position) (cond : List Instr) (body : List Instr)

/-- yezu.py lines 198-207: Function node (the name is the WORD token's
value, as stored by parse_function). -/
structure Func where
  pos : Position
  name : Value
  body : List Instr

/-- yezu.py lines 187-195: Program — function definitions plus top-level
body. -/
structure Program where
  functions : List Func
  body : List Instr

/-- yezu.py lines 249-250: Parser.match — current token exists and its
kind is among `kinds`. -/
def matchKinds (kinds : List Kind) (ts : List Token) : Bool :=
  match ts with
  | [] => false
  | t :: _ => kinds.contains t.kind

/-- yezu.py lines 252-258: Parser.expect — consume and return the current
token if its kind is allowed, else fail with the expected-versus-found
diagnostic (position included when a token was present). -/
def expect (kinds : List Kind) (ts : List Token) : Except PError (Token × List Token) :=
  match ts with
  | [] => .error (.missingExpected kinds none)
  | t :: rest =>
      if kinds.contains t.kind then .ok (t, rest)
      else .error (.missingExpected kinds (some (t.kind, t.pos)))

mutual

/-- yezu.py lines 294-304: Parser.parse_atom (fuel-indexed). -/
def parse_atom : Nat → List Token → Except PError (Instr × List Token)
  | 0, _ => .error .outOfFuel
  | _+1, [] => .error .currentNone
  | fuel+1, t :: ts =>
    if VALUE_KINDS.contains t.kind then .ok (.tok t, ts)
    else if t.kind = .WORD then .ok (.tok t, ts)
    else if t.kind = .IF then parse_if fuel (t :: ts)
    else if t.kind = .WHILE then parse_while fuel (t :: ts)
    else .error (.unexpectedToken t.kind t.pos)

/-- yezu.py lines 260-264: Parser.collect — parse atoms until the current
token's kind is a stop kind or input ends. -/
def collect : Nat → List Kind → List Token → Except PError (List Instr × List Token)
  | 0, _, _ => .error .outOfFuel
  | _+1, _, [] => .ok ([], [])
  | fuel+1, stops, t :: ts =>
    if stops.contains t.kind then .ok ([], t :: ts)
    else do
      let (a, ts1) ← parse_atom fuel (t :: ts)
      let (rest, ts2) ← collect fuel stops ts1
      .ok (a :: rest, ts2)

/-- yezu.py lines 313-318: the elif arm loop of Parser.parse_if. Note the
arm body stops only at ELIF or ELSE (END is not a stop kind here). -/
def elifLoop :
    Nat → List (Option (List Instr) × List Instr) → List Token →
      Except PError (List (Option (List Instr) × List Instr) × List Token)
  | 0, _, _ => .error .outOfFuel
  | fuel+1, cases, ts =>
    if matchKinds [.ELIF] ts then do
      let (_, ts1) ← expect [.ELIF] ts
      let (cond, ts2) ← collect fuel [.THEN] ts1
      let (_, ts3) ← expect [.THEN] ts2
      let (body, ts4) ← collect fuel [.ELIF, .ELSE] ts3
      elifLoop fuel (cases ++ [(some cond, body)]) ts4
    else .ok (cases, ts)

/-- yezu.py lines 306-324: Parser.parse_if. -/
def parse_if : Nat → List Token → Except PError (Instr × List Token)
  | 0, _ => .error .outOfFuel
  | fuel+1, ts => do
    let (iftok, ts1) ← expect [.IF] ts
    let (cond, ts2) ← collect fuel [.THEN] ts1
    let (_, ts3) ← expect [.THEN] ts2
    let (body, ts4) ← collect fuel [.ELIF, .ELSE, .END] ts3
    let (cases, ts5) ← elifLoop fuel [(some cond, body)] ts4
    let (cases2, ts6) ←
      if matchKinds [.ELSE] ts5 then do
        let (_, tsa) ← expect [.ELSE] ts5
        let (ebody, tsb) ← collect fuel [.END] tsa
        pure (cases ++ [((none : Option (List Instr)), ebody)], tsb)
      else pure (cases, ts5)
    let (_, ts7) ← expect [.END] ts6
    .ok (.ifNode iftok.pos cases2, ts7)

/-- yezu.py lines 326-332: Parser.parse_while. -/
def parse_while : Nat → List Token → Except PError (Instr × List Token)
  | 0, _ => .error .outOfFuel
  | fuel+1, ts => do
    let (wtok, ts1) ← expect [.WHILE] ts
    let (cond, ts2) ← collect fuel [.DO] ts1
    let (_, ts3) ← expect [.DO] ts2
    let (body, ts4) ← collect fuel [.END] ts3
    let (_, ts5) ← expect [.END] ts4
    .ok (.whileNode wtok.pos cond body, ts5)

end

/-- yezu.py lines 287-292: Parser.parse_function. -/
def parse_function : Nat → List Token → Except PError (Func × List Token)
  | 0, _ => .error .outOfFuel
  | fuel+1, ts => do
    let (ftok, ts1) ← expect [.FUN] ts
    let (wtok, ts2) ← expect [.WORD] ts1
    let (body, ts3) ← collect fuel [.END] ts2
    let (_, ts4) ← expect [.END] ts3
    .ok (⟨ftok.pos, wtok.value, body⟩, ts4)

/-- yezu.py lines 269-285: the Parser.program property — iterate
__next__, routing Function nodes to the function set and everything else
to the top-level body. -/
def parseTop : Nat → List Token → Except PError Program
  | 0, _ => .error .outOfFuel
  | _+1, [] => .ok ⟨[], []⟩
  | fuel+1, t :: ts =>
    if t.kind = .FUN then do
      let (fn, ts1) ← parse_function fuel (t :: ts)
      let p ← parseTop fuel ts1
      .ok ⟨fn :: p.functions, p.body⟩
    else do
      let (a, ts1) ← parse_atom fuel (t :: ts)
      let p ← parseTop fuel ts1
      .ok ⟨p.functions, a :: p.body⟩

/-- Parse a token sequence. Four fuel units per token cover the deepest
possible chain of parser calls between two token consumptions. -/
def parseTokens (ts : List Token) : Except PError Program :=
  parseTop (4 * ts.length + 4) ts

/-- The front-end pipeline as main composes it (yezu.py lines 394-401):
scan, tokenize, filter out COMMENT tokens, parse. -/
def parseSource (path : String) (text : List Char) : Except PError Program :=
  parseTokens (excludeComments (lexAll path text))

/-- yezu.py lines 351-357: the primitive data types. -/
inductive DT where
  | INT | FLOAT | BOOL | STR | CHAR
deriving DecidableEq, Repr

/-- yezu.py lines 359-366: a type in a signature — a concrete data type
or a named generic placeholder. (The source's Generic.__init__ takes no
name parameter and assigns an undefined global `name`, so evaluating
`Generic("T")` raises; the evident meaning of the literal — a placeholder
carrying the given name — is embedded.) -/
inductive Ty where
  | dt (d : DT)
  | generic (name : List Char)
deriving DecidableEq, Repr

/-- yezu.py lines 334-349: Signature — consumed and produced types, read
right-to-left as top-of-stack first. -/
structure Signature where
  consume : List Ty
  produce : List Ty
deriving DecidableEq, Repr

/-- yezu.py lines 368-381: the BUILTINS table exactly as the source
literal writes it. In particular the source gives `dup` the signature
consume [T, T], produce [T]. -/
def BUILTINS : List (List Char × Signature) :=
  [("+".data, ⟨[.dt .INT, .dt .INT], [.dt .INT]⟩),
   ("-".data, ⟨[.dt .INT, .dt .INT], [.dt .INT]⟩),
   ("*".data, ⟨[.dt .INT, .dt .INT], [.dt .INT]⟩),
   ("=".data, ⟨[.dt .INT, .dt .INT], [.dt .BOOL]⟩),
   (">".data, ⟨[.dt .INT, .dt .INT], [.dt .BOOL]⟩),
   ("<".data, ⟨[.dt .INT, .dt .INT], [.dt .BOOL]⟩),
   ("println".data, ⟨[.generic "T".data], []⟩),
   ("drop".data, ⟨[.generic "T".data], []⟩),
   ("dup".data, ⟨[.generic "T".data, .generic "T".data], [.generic "T".data]⟩)]

/-- Dictionary lookup in a word-to-Signature table. -/
def lookupSig (table : List (List Char × Signature)) (w : List Char) : Option Signature :=
  (table.find? (fun p => p.1 == w)).map Prod.snd

/-- Structured form of the type-checking diagnostics of spec section 7
(the Checker class in src/yezu.py is stubbed: only its __init__ exists). -/
inductive CheckError where
  | unknownWord (w : List Char) (pos : Position)
  | stackUnderflow (pos : Position)
  | typeMismatch (pos : Position) (expected : Ty) (found : DT)
  | unresolvedGeneric (pos : Position) (name : List Char)
  | condNotBool (pos : Position)
  | divergentBranches (pos : Position)
  | loopEffectMismatch (pos : Position)
  | nonValueInstr (pos : Position)
  | outOfFuel
deriving DecidableEq, Repr

/-- A per-call generic-unification context: placeholder name to resolved
concrete type. -/
abbrev Bindings := List (List Char × DT)

/-- Modelled from the spec: one unification step of the stubbed Checker —
a required type against the concrete type popped from the abstract stack,
binding a fresh generic or requiring agreement with its prior binding. -/
def unifyOne (pos : Position) (c : Ty) (t : DT) (b : Bindings) : Except CheckError Bindings :=
  match c with
  | .dt d => if d = t then .ok b else .error (.typeMismatch pos c t)
  | .generic n =>
    match b.find? (fun p => p.1 == n) with
    | some p => if p.2 = t then .ok b else .error (.typeMismatch pos (.dt p.2) t)
    | none => .ok ((n, t) :: b)

/-- Modelled from the spec: pop one stack entry per consumed type,
innermost/rightmost (= top of stack) first. The stack argument here is
top-first and the consume list is pre-reversed by the caller. -/
def consumeAll (pos : Position) :
    List Ty → List DT → Bindings → Except CheckError (List DT × Bindings)
  | [], stack, b => .ok (stack, b)
  | c :: cs, stack, b =>
    match stack with
    | [] => .error (.stackUnderflow pos)
    | t :: rest => do
        let b2 ← unifyOne pos c t b
        consumeAll pos cs rest b2

/-- Modelled from the spec: the produce list with resolved generics
substituted. -/
def substProduce (pos : Position) : List Ty → Bindings → Except CheckError (List DT)
  | [], _ => .ok []
  | c :: cs, b =>
    match c with
    | .dt d => do
        let rest ← substProduce pos cs b
        .ok (d :: rest)
    | .generic n =>
      match b.find? (fun p => p.1 == n) with
      | some p => do
          let rest ← substProduce pos cs b
          .ok (p.2 :: rest)
      | none => .error (.unresolvedGeneric pos n)

/-- Modelled from the spec: the stubbed Checker's effect of one leaf
instruction on the abstract stack (bottom-first list): a literal pushes
its concrete data type; a word looks up its Signature, consumes with
per-call unification, and pushes the substituted produce list. -/
def checkToken (table : List (List Char × Signature)) (t : Token) (st : List DT) :
    Except CheckError (List DT) :=
  match t.kind with
  | .INTEGER => .ok (st ++ [.INT])
  | .FLOAT => .ok (st ++ [.FLOAT])
  | .BOOLEAN => .ok (st ++ [.BOOL])
  | .STRING => .ok (st ++ [.STR])
  | .CHARACTER => .ok (st ++ [.CHAR])
  | .WORD =>
    match t.value with
    | .vstr w =>
      match lookupSig table w with
      | none => .error (.unknownWord w t.pos)
      | some sig => do
          let (restTop, b) ← consumeAll t.pos sig.consume.reverse st.reverse []
          let prod ← substProduce t.pos sig.produce b
          .ok (restTop.reverse ++ prod)
    | _ => .error (.nonValueInstr t.pos)
  | _ => .error (.nonValueInstr t.pos)

mutual

/-- Modelled from the spec: the stubbed Checker's instruction-sequence
walk, threading the abstract stack (bottom-first; fuel-indexed). While
loops require a BOOL condition result and a stack-neutral body; the stack
after a While is the pre-loop stack. -/
def checkSeq (table : List (List Char × Signature)) :
    Nat → List Instr → List DT → Except CheckError (List DT)
  | 0, _, _ => .error .outOfFuel
  | _+1, [], st => .ok st
  | fuel+1, i :: rest, st =>
    match i with
    | .tok t => do
        let st2 ← checkToken table t st
        checkSeq table fuel rest st2
    | .ifNode pos cases => do
        let st2 ← checkCases table fuel pos cases st none false
        checkSeq table fuel rest st2
    | .whileNode pos cond body => do
        let stc ← checkSeq table fuel cond st
        match stc.getLast? with
        | some DT.BOOL => do
            let stb ← checkSeq table fuel body stc.dropLast
            if stb = st then checkSeq table fuel rest st
            else .error (.loopEffectMismatch pos)
        | _ => .error (.condNotBool pos)

/-- Modelled from the spec: the stubbed Checker's If handling — every arm
with a condition type-checks its condition from the entry stack and must
leave BOOL on top (popped before the branch body); all branch results
must be structurally identical, and with no else arm the implicit empty
branch (the entry stack) must match as well. `agreed` carries the common
result so far and `hasElse` whether an else arm was seen. -/
def checkCases (table : List (List Char × Signature)) :
    Nat → Position → List (Option (List Instr) × List Instr) → List DT →
      Option (List DT) → Bool → Except CheckError (List DT)
  | 0, _, _, _, _, _ => .error .outOfFuel
  | _+1, pos, [], st, agreed, hasElse =>
    (match agreed with
     | none => .ok st
     | some r =>
        if hasElse then .ok r
        else if r = st then .ok r else .error (.divergentBranches pos))
  | fuel+1, pos, (ocond, body) :: rest, st, agreed, hasElse =>
    match ocond with
    | some cond => do
        let stc ← checkSeq table fuel cond st
        match stc.getLast? with
        | some DT.BOOL => do
            let stb ← checkSeq table fuel body stc.dropLast
            match agreed with
            | none => checkCases table fuel pos rest st (some stb) hasElse
            | some r =>
                if stb = r then checkCases table fuel pos rest st (some r) hasElse
                else .error (.divergentBranches pos)
        | _ => .error (.condNotBool pos)
    | none => do
        let stb ← checkSeq table fuel body st
        match agreed with
        | none => checkCases table fuel pos rest st (some stb) true
        | some r =>
            if stb = r then checkCases table fuel pos rest st (some r) true
            else .error (.divergentBranches pos)

end

/-- A front-end outcome: a parse diagnostic, a check diagnostic, or the
final abstract stack of the top-level body. -/
inductive FrontError where
  | parse (e : PError)
  | check (e : CheckError)
deriving DecidableEq, Repr

/-- Modelled from the spec: run the whole pipeline on a source text and
type-check the parsed top-level body from an empty abstract stack against
the BUILTINS table (the Checker class in src/yezu.py is stubbed: only its
__init__, which copies BUILTINS, exists). Result: the final abstract
stack, bottom-first. -/
def checkSource (path : String) (text : List Char) : Except FrontError (List DT) :=
  let toks := excludeComments (lexAll path text)
  match parseTokens toks with
  | .error e => .error (.parse e)
  | .ok p =>
    match checkSeq BUILTINS (4 * toks.length + 4) p.body [] with
    | .error e => .error (.check e)
    | .ok st => .ok st

theorem Scanner.increment_of_not_newline (s : Scanner) (c : Char)
    (hg : s.string[s.index + 1]? = some c) (hc : c ≠ '\n') :
    s.increment = { s with index := s.index + 1, row := s.row + 1 } := by
  simp only [Scanner.increment, hg]
  simp [hc]

theorem Scanner.increment_of_newline (s : Scanner)
    (hg : s.string[s.index + 1]? = some '\n') :
    s.increment = { s with index := s.index + 1, line := s.line + 1, row := -1 } := by
  simp only [Scanner.increment, hg]
  simp

theorem Scanner.increment_of_none (s : Scanner)
    (hg : s.string[s.index + 1]? = none) :
    s.increment = { s with index := s.index + 1 } := by
  simp only [Scanner.increment, hg]

theorem Scanner.increment_index (s : Scanner) : s.increment.index = s.index + 1 := by
  simp only [Scanner.increment]
  split
  · split <;> rfl
  · rfl

theorem Scanner.increment_string (s : Scanner) : s.increment.string = s.string := by
  simp only [Scanner.increment]
  split
  · split <;> rfl
  · rfl

/-- A skip loop with a failing (or absent) current character is the
identity, whatever the fuel. -/
theorem Scanner.skipFuel_stop (cond : Char → Bool) (fuel : Nat) (s : Scanner)
    (h : ∀ c, s.string[s.index]? = some c → cond c = false) :
    Scanner.skipFuel fuel cond s = s := by
  cases fuel with
  | zero => rfl
  | succ n =>
    unfold Scanner.skipFuel
    cases hg : s.string[s.index]? with
    | none => rfl
    | some c => simp [h c hg]

/-- Scanner.skip consumes exactly the longest prefix of the remaining
input satisfying `cond` (fuel-indexed core). -/
theorem Scanner.skipFuel_index (cond : Char → Bool) :
    ∀ (fuel : Nat) (s : Scanner),
      ((s.string.drop s.index).takeWhile cond).length ≤ fuel →
      (Scanner.skipFuel fuel cond s).index =
        s.index + ((s.string.drop s.index).takeWhile cond).length := by
  intro fuel
  induction fuel with
  | zero =>
    intro s h
    simp only [Nat.le_zero, List.length_eq_zero] at h
    simp [Scanner.skipFuel, h]
  | succ n ih =>
    intro s h
    unfold Scanner.skipFuel
    cases hg : s.string[s.index]? with
    | none =>
      have hlen : s.string.length ≤ s.index := by
        by_contra hlt
        push_neg at hlt
        simp [List.getElem?_eq_getElem hlt] at hg
      simp [List.drop_eq_nil_of_le hlen]
    | some c =>
      have hlt : s.index < s.string.length := (List.getElem?_eq_some.mp hg).1
      have hdrop : s.string.drop s.index = c :: s.string.drop (s.index + 1) := by
        rw [List.drop_eq_getElem_cons hlt, (List.getElem?_eq_some.mp hg).2]
      by_cases hc : cond c
      · rw [hdrop] at h ⊢
        rw [List.takeWhile_cons] at h ⊢
        simp only [hc, if_true] at h ⊢
        have hrec := ih s.increment
        rw [Scanner.increment_string, Scanner.increment_index] at hrec
        have hrec2 := hrec (by simpa using Nat.le_of_succ_le_succ (by simpa using h))
        rw [hrec2]
        simp only [List.length_cons]
        omega
      · rw [hdrop, List.takeWhile_cons]
        simp [hc]

/-- Scanner.skip consumes exactly the longest prefix of the remaining
input satisfying `cond`. -/
theorem Scanner.skip_index (cond : Char → Bool) (s : Scanner) :
    (s.skip cond).index = s.index + ((s.string.drop s.index).takeWhile cond).length := by
  apply Scanner.skipFuel_index
  have h1 : ((s.string.drop s.index).takeWhile cond).length ≤ (s.string.drop s.index).length :=
    (List.takeWhile_prefix cond).length_le
  have h2 : (s.string.drop s.index).length = s.string.length - s.index := by simp
  omega

/-- Skipping whitespace does not change the line counter as long as the
whitespace run beyond the current character contains no newline (the
current character itself is never re-inspected). -/
theorem Scanner.skipFuel_isspace_line :
    ∀ (fuel : Nat) (s : Scanner),
      ((s.string.drop s.index).takeWhile isspace).length ≤ fuel →
      '\n' ∉ (s.string.drop (s.index + 1)).takeWhile isspace →
      (Scanner.skipFuel fuel isspace s).line = s.line := by
  intro fuel
  induction fuel with
  | zero => intro s _ _; rfl
  | succ n ih =>
    intro s h hn
    unfold Scanner.skipFuel
    cases hg : s.string[s.index]? with
    | none => rfl
    | some c =>
      by_cases hc : isspace c
      · simp only [hc, if_true]
        have hlt : s.index < s.string.length := (List.getElem?_eq_some.mp hg).1
        have hdrop : s.string.drop s.index = c :: s.string.drop (s.index + 1) := by
          rw [List.drop_eq_getElem_cons hlt, (List.getElem?_eq_some.mp hg).2]
        cases hd : s.string.drop (s.index + 1) with
        | nil =>
          have hg2 : s.string[s.index + 1]? = none := by
            have : s.string.length ≤ s.index + 1 := by
              by_contra hlt2
              push_neg at hlt2
              rw [List.drop_eq_getElem_cons hlt2] at hd
              exact List.noConfusion hd
            exact List.getElem?_eq_none this
          rw [Scanner.skipFuel_stop]
          · rw [Scanner.increment_of_none s hg2]
          · intro c2 hc2
            rw [Scanner.increment_of_none s hg2] at hc2
            simp only at hc2
            rw [hg2] at hc2
            exact Option.noConfusion hc2
        | cons c2 d2 =>
          have hg2 : s.string[s.index + 1]? = some c2 := by
            have := List.getElem?_drop s.string (s.index + 1) 0
            rw [hd] at this
            simpa using this.symm
          have hdd : s.string.drop (s.index + 1 + 1) = d2 := by
            rw [← List.tail_drop, hd]
            rfl
          have hc2nl : c2 ≠ '\n' := by
            intro heq
            apply hn
            rw [hd, heq, List.takeWhile_cons]
            simp [isspace]
          have hinc := Scanner.increment_of_not_newline s c2 hg2 hc2nl
          by_cases hc2 : isspace c2
          · have ihrec := ih s.increment
            rw [Scanner.increment_string, Scanner.increment_index] at ihrec
            have harg1 : ((s.string.drop (s.index + 1)).takeWhile isspace).length ≤ n := by
              rw [hdrop, List.takeWhile_cons] at h
              simp only [hc, if_true, List.length_cons] at h
              omega
            have harg2 : '\n' ∉ (s.string.drop (s.index + 1 + 1)).takeWhile isspace := by
              rw [hdd]
              intro hmem
              apply hn
              rw [hd, List.takeWhile_cons]
              simp only [hc2, if_true]
              exact List.mem_cons_of_mem c2 hmem
            have := ihrec harg1 harg2
            rw [this, hinc]
          · rw [Scanner.skipFuel_stop]
            · rw [hinc]
            · intro c3 hc3
              rw [hinc] at hc3
              simp only at hc3
              rw [hg2] at hc3
              cases hc3
              simpa using hc2
      · simp [hc]

/-- The position attached to a yielded lexeme is the one recorded directly
after the initial whitespace skip, in both the comment and the word branch
of Scanner.__next__. -/
theorem Scanner.next_pos (s0 : Scanner) (pos : Position) (lex : List Char) (s1 : Scanner)
    (h : s0.next = some ((pos, lex), s1)) :
    pos = (s0.skip isspace).position := by
  simp only [Scanner.next] at h
  split at h
  · exact Option.noConfusion h
  · split at h
    · simp only [Option.some.injEq, Prod.mk.injEq] at h
      exact h.1.1.symm
    · simp only [Option.some.injEq, Prod.mk.injEq] at h
      exact h.1.1.symm


/-! ## Claims -/

/-- C1: the pre-seeded builtin table, as the source literal defines it.
The six arithmetic/comparison entries and `println`/`drop` have exactly
the claimed signatures, but `dup` is given consume [T, T], produce [T] —
the reverse of the claimed (and only sensible) T → T, T. (Moreover the
source's Generic.__init__ ignores its argument and reads an undefined
global, so building this table even raises a TypeError at import time.) -/
theorem C1_builtins_table :
    lookupSig BUILTINS "+".data = some ⟨[.dt .INT, .dt .INT], [.dt .INT]⟩ ∧
    lookupSig BUILTINS "-".data = some ⟨[.dt .INT, .dt .INT], [.dt .INT]⟩ ∧
    lookupSig BUILTINS "*".data = some ⟨[.dt .INT, .dt .INT], [.dt .INT]⟩ ∧
    lookupSig BUILTINS "=".data = some ⟨[.dt .INT, .dt .INT], [.dt .BOOL]⟩ ∧
    lookupSig BUILTINS ">".data = some ⟨[.dt .INT, .dt .INT], [.dt .BOOL]⟩ ∧
    lookupSig BUILTINS "<".data = some ⟨[.dt .INT, .dt .INT], [.dt .BOOL]⟩ ∧
    lookupSig BUILTINS "println".data = some ⟨[.generic "T".data], []⟩ ∧
    lookupSig BUILTINS "drop".data = some ⟨[.generic "T".data], []⟩ ∧
    lookupSig BUILTINS "dup".data =
      some ⟨[.generic "T".data, .generic "T".data], [.generic "T".data]⟩ ∧
    lookupSig BUILTINS "dup".data ≠
      some ⟨[.generic "T".data], [.generic "T".data, .generic "T".data]⟩ := by
  refine ⟨rfl, rfl, rfl, rfl, rfl, rfl, rfl, rfl, rfl, ?_⟩
  decide

/-- C2: an `if ... then ... elif ... then ... end` with no else arm does
NOT parse: the elif arm's body collection stops only at ELIF or ELSE
(yezu.py line 317), so the terminal `end` reaches parse_atom and is
reported as an unexpected token; the same arms followed by an else arm
parse fine, so the failure is specific to the missing END stop kind. -/
theorem C2_elif_without_else_rejected :
    parseSource "p" "if 1 then 2 elif 3 then 4 end".data =
      .error (.unexpectedToken .END ⟨"p", 1, 26⟩) ∧
    parseSource "p" "if 1 then 2 elif 3 then 4 else 5 end".data =
      .ok ⟨[], [.ifNode ⟨"p", 1, 0⟩
        [(some [.tok ⟨⟨"p", 1, 3⟩, .INTEGER, .vint 1⟩], [.tok ⟨⟨"p", 1, 10⟩, .INTEGER, .vint 2⟩]),
         (some [.tok ⟨⟨"p", 1, 17⟩, .INTEGER, .vint 3⟩], [.tok ⟨⟨"p", 1, 24⟩, .INTEGER, .vint 4⟩]),
         (none, [.tok ⟨⟨"p", 1, 31⟩, .INTEGER, .vint 5⟩])]]⟩ :=
  ⟨rfl, rfl⟩

/-- C3: type-checking `1 2 +` yields the abstract stack [INT]
(bottom-first), `1 2 + true` yields [INT, BOOL], and `1 true +` fails with
a TypeMismatch diagnostic at the position of `+` (line 1, column 7). -/
theorem C3_checker_examples :
    checkSource "p" "1 2 +".data = .ok [.INT] ∧
    checkSource "p" "1 2 + true".data = .ok [.INT, .BOOL] ∧
    checkSource "p" "1 true +".data =
      .error (.check (.typeMismatch ⟨"p", 1, 7⟩ (.dt .INT) .BOOL)) :=
  ⟨rfl, rfl, rfl⟩

/-- C4 (counterexample): the Scanner does NOT yield the single raw lexeme
`ab;cd` for input `ab;cd` — a semicolon terminates an in-progress lexeme
(the accumulation predicate excludes it, yezu.py line 71), so the input
scans as the word lexeme `ab` followed by the comment lexeme `;cd`. -/
theorem C4_semicolon_breaks_lexeme :
    (scanAll "p" "ab;cd".data).map Prod.snd = ["ab".data, ";cd".data] ∧
    (scanAll "p" "ab;cd".data).map Prod.snd ≠ ["ab;cd".data] := by
  refine ⟨rfl, ?_⟩
  decide

/-- C4 (amended): an unquoted lexeme accumulates characters exactly while
they are non-whitespace, not a quote character, and not a semicolon: the
accumulation skip consumes precisely the longest prefix of the remaining
input satisfying that predicate; for input `ab;cd` the Scanner yields the
lexeme `ab` at column 0 and then the comment lexeme `;cd` at column 2. -/
theorem C4_word_accumulation :
    (∀ s : Scanner, (s.skip notWordBreak).index =
      s.index + ((s.string.drop s.index).takeWhile notWordBreak).length) ∧
    scanAll "p" "ab;cd".data =
      [(⟨"p", 1, 0⟩, "ab".data), (⟨"p", 1, 2⟩, ";cd".data)] :=
  ⟨Scanner.skip_index notWordBreak, by decide⟩

/-- C5 (counterexample): parsing a token sequence that contains a COMMENT
token is NOT the same as parsing it with COMMENT tokens filtered out: the
filtered singleton parses to the empty Program while the unfiltered one
hits parse_atom's unexpected-token error. -/
theorem C5_comment_token_not_ignored :
    parseTokens (excludeComments [⟨⟨"p", 1, 0⟩, .COMMENT, .vstr " x".data⟩]) ≠
      parseTokens [⟨⟨"p", 1, 0⟩, .COMMENT, .vstr " x".data⟩] := by
  have h1 : parseTokens (excludeComments [⟨⟨"p", 1, 0⟩, .COMMENT, .vstr " x".data⟩]) =
      .ok ⟨[], []⟩ := rfl
  have h2 : parseTokens [⟨⟨"p", 1, 0⟩, .COMMENT, .vstr " x".data⟩] =
      .error (.unexpectedToken .COMMENT ⟨"p", 1, 0⟩) := rfl
  rw [h1, h2]
  exact fun h => Except.noConfusion h

/-- C5 (amended): source text `; note` newline `code` lexes to a COMMENT
token with value ` note` followed by a WORD token `code`; and COMMENT
filtering is the identity on any token sequence containing no COMMENT
token, so on such sequences parsing the filtered and the unfiltered
sequence produce the same result (a sequence that does contain a COMMENT
token makes the unfiltered parse fail, which is why the pipeline always
filters before parsing). -/
theorem C5_comment_pipeline :
    lexAll "p" "; note\ncode".data =
      [⟨⟨"p", 1, 0⟩, .COMMENT, .vstr " note".data⟩,
       ⟨⟨"p", 2, 0⟩, .WORD, .vstr "code".data⟩] ∧
    (∀ ts : List Token, (∀ t ∈ ts, t.kind ≠ .COMMENT) →
      parseTokens (excludeComments ts) = parseTokens ts) := by
  refine ⟨rfl, ?_⟩
  intro ts h
  have hid : excludeComments ts = ts := by
    apply List.filter_eq_self.mpr
    intro t ht
    simpa using h t ht
  rw [hid]

theorem C5_comment_pipeline_witness :
    parseTokens (excludeComments [⟨⟨"p", 1, 0⟩, .WORD, .vstr "w".data⟩]) =
      parseTokens [⟨⟨"p", 1, 0⟩, .WORD, .vstr "w".data⟩] :=
  C5_comment_pipeline.2 [⟨⟨"p", 1, 0⟩, .WORD, .vstr "w".data⟩] (by decide)

/-- C6: tokenize is a total pure function by construction (a Lean function
Position → List Char → Token, so every input yields exactly one Token and
no error); a lexeme matching none of the recognized
integer/float/boolean/string/character/keyword/comment/word shapes falls
through to an ILLEGAL token carrying the given position and the raw
text. -/
theorem C6_tokenize_illegal_fallback (pos : Position) (s : List Char)
    (h1 : matchInteger s = false) (h2 : matchFloat s = false)
    (h3 : s ≠ "true".data) (h4 : s ≠ "false".data)
    (h5 : matchString s = false) (h6 : matchCharacter s = false)
    (h7 : lookupKeyword s = none) (h8 : s.head? ≠ some ';')
    (h9 : matchWord s = false) :
    tokenize pos s = ⟨pos, .ILLEGAL, .vstr s⟩ := by
  simp [tokenize, h1, h2, h3, h4, h5, h6, h7, h8, h9]

theorem C6_tokenize_illegal_fallback_witness :
    tokenize ⟨"p", 1, 0⟩ ['"', 'a'] = ⟨⟨"p", 1, 0⟩, .ILLEGAL, .vstr ['"', 'a']⟩ :=
  C6_tokenize_illegal_fallback ⟨"p", 1, 0⟩ ['"', 'a'] (by decide) (by decide) (by decide)
    (by decide) (by decide) (by decide) (by decide) (by decide) (by decide)

/-- C7: literal decoding round-trips the source lexemes: `42` decodes to
INTEGER 42; `3.14` decodes to FLOAT with the exact decimal 314/10^2, which
equals the rational 3.14; `true` decodes to BOOLEAN true; a single-quoted
`x` decodes to CHARACTER with the one-character string value `x`; and a
double-quoted `hi` decodes to STRING `hi` with the quotes stripped. -/
theorem C7_literal_decoding :
    tokenize ⟨"p", 1, 0⟩ "42".data = ⟨⟨"p", 1, 0⟩, .INTEGER, .vint 42⟩ ∧
    tokenize ⟨"p", 1, 0⟩ "3.14".data = ⟨⟨"p", 1, 0⟩, .FLOAT, .vfloat 314 2⟩ ∧
    ((314 : Rat) / 10 ^ 2 = 3.14) ∧
    tokenize ⟨"p", 1, 0⟩ "true".data = ⟨⟨"p", 1, 0⟩, .BOOLEAN, .vbool true⟩ ∧
    tokenize ⟨"p", 1, 0⟩ [squote, 'x', squote] = ⟨⟨"p", 1, 0⟩, .CHARACTER, .vstr ['x']⟩ ∧
    tokenize ⟨"p", 1, 0⟩ ['"', 'h', 'i', '"'] = ⟨⟨"p", 1, 0⟩, .STRING, .vstr "hi".data⟩ :=
  ⟨rfl, rfl, by norm_num, rfl, rfl, rfl⟩

/-- C8: for input `a` newline `bb` the Scanner reports lexeme `a` at line
1 column 0 and lexeme `bb` at line 2 column 0; and an increment step onto
a present non-newline character adds exactly one to the column and leaves
the line unchanged. -/
theorem C8_position_tracking :
    (scanAll "p" "a\nbb".data =
      [(⟨"p", 1, 0⟩, ['a']), (⟨"p", 2, 0⟩, ['b', 'b'])]) ∧
    (∀ (s : Scanner) (c : Char), s.string[s.index + 1]? = some c → c ≠ '\n' →
      s.increment.row = s.row + 1 ∧ s.increment.line = s.line) := by
  refine ⟨by decide, ?_⟩
  intro s c hg hc
  rw [Scanner.increment_of_not_newline s c hg hc]
  exact ⟨rfl, rfl⟩

theorem C8_position_tracking_witness :
    (Scanner.mkInit "p" "ab".data).increment.row = (Scanner.mkInit "p" "ab".data).row + 1 ∧
      (Scanner.mkInit "p" "ab".data).increment.line = (Scanner.mkInit "p" "ab".data).line :=
  C8_position_tracking.2 (Scanner.mkInit "p" "ab".data) 'b' (by decide) (by decide)

/-- C9: expect consumes and returns the current token exactly when its
kind is allowed; with a present token of a disallowed kind it fails with
the expected kinds, the found kind and its position; at end of input it
fails with the expected kinds and no found token — in particular parsing
`if 1 then 2` fails naming END as the expected kind. -/
theorem C9_expect (kinds : List Kind) (t : Token) (rest : List Token) :
    (t.kind ∈ kinds → expect kinds (t :: rest) = .ok (t, rest)) ∧
    (t.kind ∉ kinds →
      expect kinds (t :: rest) = .error (.missingExpected kinds (some (t.kind, t.pos)))) ∧
    expect kinds [] = .error (.missingExpected kinds none) ∧
    parseSource "p" "if 1 then 2".data = .error (.missingExpected [.END] none) := by
  refine ⟨?_, ?_, rfl, rfl⟩
  · intro h
    simp [expect, h]
  · intro h
    simp [expect, h]

theorem C9_expect_witness :
    expect [Kind.END] [⟨⟨"p", 1, 5⟩, .END, .vnone⟩] = .ok (⟨⟨"p", 1, 5⟩, .END, .vnone⟩, []) ∧
    expect [Kind.END] [⟨⟨"p", 1, 5⟩, .IF, .vnone⟩] =
      .error (.missingExpected [Kind.END] (some (.IF, ⟨"p", 1, 5⟩))) :=
  ⟨(C9_expect [Kind.END] ⟨⟨"p", 1, 5⟩, .END, .vnone⟩ []).1 (by decide),
   (C9_expect [Kind.END] ⟨⟨"p", 1, 5⟩, .IF, .vnone⟩ []).2.1 (by decide)⟩

/-- C10 (counterexample): for the input newline-newline-`a` — whose first
character is a newline — the first lexeme is reported at line 2 column 0,
not at line 1: only the newline at index 0 escapes counting, a second
newline in the leading whitespace is reached by an increment step. -/
theorem C10_second_newline_counted :
    scanAll "p" "\n\na".data = [(⟨"p", 2, 0⟩, ['a'])] ∧
    (⟨"p", 2, 0⟩ : Position).line ≠ 1 := by
  refine ⟨rfl, ?_⟩
  decide

/-- C10 (amended): line counting inspects only characters reached by an
increment step, never the character at index 0; so for any input whose
first character is a newline and whose leading whitespace contains no
further newline, the first lexeme is reported at line 1 — in particular
input newline-`a` scans to a single lexeme at line 1 column 1. -/
theorem C10_first_newline_uncounted :
    (scanAll "p" "\na".data = [(⟨"p", 1, 1⟩, ['a'])]) ∧
    (∀ (path : String) (rest : List Char) (pos : Position) (lex : List Char) (s1 : Scanner),
      '\n' ∉ rest.takeWhile isspace →
      (Scanner.mkInit path ('\n' :: rest)).next = some ((pos, lex), s1) →
      pos.line = 1) := by
  refine ⟨by decide, ?_⟩
  intro path rest pos lex s1 hn h
  have hp := Scanner.next_pos _ _ _ _ h
  have hline : ((Scanner.mkInit path ('\n' :: rest)).skip isspace).line =
      (Scanner.mkInit path ('\n' :: rest)).line := by
    unfold Scanner.skip
    apply Scanner.skipFuel_isspace_line
    · have hle : ((('\n' :: rest).drop 0).takeWhile isspace).length ≤
          ('\n' :: rest).length := by
        have h1 : ((('\n' :: rest).drop 0).takeWhile isspace).length ≤
            (('\n' :: rest).drop 0).length := (List.takeWhile_prefix isspace).length_le
        simpa using h1
      simpa [Scanner.mkInit] using Nat.le_trans hle (Nat.le_succ _)
    · simpa [Scanner.mkInit] using hn
  rw [hp]
  simpa [Scanner.position, Scanner.mkInit] using hline

theorem C10_first_newline_uncounted_witness :
    (⟨"p", 1, 1⟩ : Position).line = 1 :=
  C10_first_newline_uncounted.2 "p" "a".data ⟨"p", 1, 1⟩ ['a']
    ⟨"p", "\na".data, 2, 1, 1⟩ (by decide) rfl

end Yezu
